import Mathlib

/-!
Verification development for the tropical-cyclone track plotter (`app.py`).

The Python source is shallowly embedded here:
* floats are modelled as rationals (`ℚ`); `NaN` / missing values as `Option`;
* HTML tables (as consumed after BeautifulSoup parsing) are lists of rows of
  text cells; catalog-page cells additionally carry their outgoing links;
* the regular expressions used by the source are embedded as explicit
  matching functions on character lists, following Python `re` semantics
  (leftmost match for `re.search`, anchored prefix match for `re.match`,
  leftmost non-overlapping replacement for `re.sub`);
* Python `float(...)` parsing is modelled by `parseParts` (sign, integral
  digits, fractional digits); the numeric value is produced by `partsToQ`.
  The extractor is factored as a decidable raw phase (`extractRaw`) followed
  by the numeric interpretation (`interpFix`); their composition
  `extract_storm_data` is the embedding of the source function of the same
  name.
-/

deriving instance DecidableEq for Except

namespace TCTrack

/-! ### Python string primitives -/

/-- Python's whitespace class (`\s`, also the set stripped by `str.strip()`). -/
def pyIsWs (c : Char) : Bool :=
  c = ' ' || c = '\t' || c = '\n' || c = '\r' || c = '\x0b' || c = '\x0c'

/-- Python `str.strip()`. -/
def pyStrip (s : String) : String :=
  ⟨((s.data.dropWhile pyIsWs).reverse.dropWhile pyIsWs).reverse⟩

/-- `needle` occurs as a contiguous sublist of the second argument. -/
def subList (needle : List Char) : List Char → Bool
  | [] => needle.isEmpty
  | c :: rest => needle.isPrefixOf (c :: rest) || subList needle rest

/-- Python `needle in hay` on strings. -/
def strContains (hay needle : String) : Bool :=
  subList needle.data hay.data

/-- Python `s[:n]`. -/
def strTake (s : String) (n : ℕ) : String := ⟨s.data.take n⟩

/-- Python truthiness of an optional string (`None` and `""` are falsy). -/
def pyTruthy (o : Option String) : Bool :=
  match o with
  | none => false
  | some s => s ≠ ""

/-- ASCII lowercasing of one character (the strings handled by the source are
ASCII, for which Python `str.lower()` is exactly this map). -/
def pyLowerChar (c : Char) : Char :=
  if 'A' ≤ c && c ≤ 'Z' then Char.ofNat (c.toNat + 32) else c

/-- Python `str.lower()` (on ASCII data). -/
def pyLower (s : String) : String := ⟨s.data.map pyLowerChar⟩

/-- ASCII uppercasing of one character. -/
def pyUpperChar (c : Char) : Char :=
  if 'a' ≤ c && c ≤ 'z' then Char.ofNat (c.toNat - 32) else c

/-- Python `str.upper()` (on ASCII data). -/
def pyUpper (s : String) : String := ⟨s.data.map pyUpperChar⟩

/-- Python `s.split('\n')`: auxiliary recursion over the characters. -/
def splitNlAux : List Char → List Char → List String
  | [], acc => [⟨acc.reverse⟩]
  | '\n' :: rest, acc => (⟨acc.reverse⟩ : String) :: splitNlAux rest []
  | c :: rest, acc => splitNlAux rest (c :: acc)

/-- Python `s.split('\n')`. -/
def splitNl (s : String) : List String := splitNlAux s.data []

/-- Code-point lexicographic comparison of character lists: exactly Python's
`<=` on strings. -/
def charListLe : List Char → List Char → Bool
  | [], _ => true
  | _ :: _, [] => false
  | a :: as, b :: bs =>
    if a.toNat < b.toNat then true
    else if b.toNat < a.toNat then false
    else charListLe as bs

/-- Python's `<=` on strings (code-point lexicographic order). -/
def strLe (s t : String) : Bool := charListLe s.data t.data

/-! ### Python `float(...)` parsing -/

/-- Numeric value of a digit string (most significant first). -/
def digitsToNat (ds : List Char) : ℕ :=
  ds.foldl (fun a c => 10 * a + (c.toNat - 48)) 0

/-- Sign and digit content of a parsed decimal literal: `neg` flag, value of
the integral digits, value of the fractional digits, and the number of
fractional digits. -/
structure NumParts where
  neg : Bool
  ip : ℕ
  fp : ℕ
  fplen : ℕ
deriving DecidableEq, Repr

/-- Parse an unsigned decimal literal: digits, optionally a dot and more
digits, at least one digit in total. -/
def parseUnsignedParts (cs : List Char) : Option (ℕ × ℕ × ℕ) :=
  let ipd := cs.takeWhile Char.isDigit
  let rest := cs.dropWhile Char.isDigit
  match rest with
  | [] => if ipd.isEmpty then none else some (digitsToNat ipd, 0, 0)
  | '.' :: fpd =>
    if fpd.all Char.isDigit && !(ipd.isEmpty && fpd.isEmpty) then
      some (digitsToNat ipd, digitsToNat fpd, fpd.length)
    else none
  | _ => none

/-- Python `float(text)` on the stripped cell text, as far as the decimal
forms appearing in the data source are concerned (scientific notation,
infinities and digit separators do not occur in the track tables). `none`
models a raised `ValueError`. -/
def parseParts (s : String) : Option NumParts :=
  match s.data with
  | '-' :: rest => (parseUnsignedParts rest).map (fun p => ⟨true, p.1, p.2.1, p.2.2⟩)
  | '+' :: rest => (parseUnsignedParts rest).map (fun p => ⟨false, p.1, p.2.1, p.2.2⟩)
  | cs => (parseUnsignedParts cs).map (fun p => ⟨false, p.1, p.2.1, p.2.2⟩)

/-- The rational value denoted by a parsed decimal literal. -/
def partsToQ (p : NumParts) : ℚ :=
  let mag : ℚ := (p.ip : ℚ) + (p.fp : ℚ) / (10 : ℚ) ^ p.fplen
  if p.neg then -mag else mag

/-- Python `float(text)` returning the numeric value. -/
def pyFloat? (s : String) : Option ℚ := (parseParts s).map partsToQ

/-! ### Timestamp regular expressions

`re.match(r'\d{4}-\d{2}-\d{2}\s+\d{2}:\d{2}:\d{2}', _)`,
`re.match(r'\d{2}:\d{2}:\d{2}', _)` and
`re.search(r'(\d{2}):\d{2}:\d{2}', _)` from `extract_storm_data`. -/

/-- Consume exactly `n` digits. -/
def takeDigits : ℕ → List Char → Option (List Char)
  | 0, cs => some cs
  | _ + 1, [] => none
  | n + 1, c :: cs => if c.isDigit then takeDigits n cs else none

/-- Consume one expected character. -/
def takeChar (ch : Char) : List Char → Option (List Char)
  | [] => none
  | c :: cs => if c = ch then some cs else none

/-- Consume `\s+` (one or more whitespace characters, greedily; the following
pattern element is never whitespace, so greedy matching is exact here). -/
def takeWs1 : List Char → Option (List Char)
  | [] => none
  | c :: cs => if pyIsWs c then some (cs.dropWhile pyIsWs) else none

/-- Consume `\d{2}:\d{2}:\d{2}`. -/
def matchHMS (cs : List Char) : Option (List Char) :=
  ((((takeDigits 2 cs).bind (takeChar ':')).bind (takeDigits 2)).bind
    (takeChar ':')).bind (takeDigits 2)

/-- Anchored match of `\d{4}-\d{2}-\d{2}\s+\d{2}:\d{2}:\d{2}`. -/
def matchFullDT (cs : List Char) : Bool :=
  (((((((takeDigits 4 cs).bind (takeChar '-')).bind (takeDigits 2)).bind
    (takeChar '-')).bind (takeDigits 2)).bind takeWs1).bind matchHMS).isSome

/-- Anchored match of `\d{2}:\d{2}:\d{2}`. -/
def matchHMSPrefix (cs : List Char) : Bool := (matchHMS cs).isSome

/-- If `(\d{2}):\d{2}:\d{2}` matches at the head, the value of its first
capture group (the two leading digits). -/
def hmsAt (cs : List Char) : Option ℕ :=
  match cs with
  | a :: b :: rest =>
    if (matchHMS (a :: b :: rest)).isSome then
      some (10 * (a.toNat - 48) + (b.toNat - 48))
    else none
  | _ => none

/-- `re.search(r'(\d{2}):\d{2}:\d{2}', _)`: the capture group of the leftmost
match, if any. -/
def hourSearch : List Char → Option ℕ
  | [] => none
  | c :: cs =>
    match hmsAt (c :: cs) with
    | some h => some h
    | none => hourSearch cs

/-! ### Derived-metric helpers (`get_intensity_color`, `calculate_ace_value`,
`convert_knots_to_mph`) -/

/-- `get_intensity_color`: colour and Saffir-Simpson category label for a wind
speed; `none` models a `NaN` wind (`pd.isna`). -/
def get_intensity_color (wind : Option ℚ) : String × String :=
  match wind with
  | none => ("#09610D", "TD")
  | some w =>
    if w < 34 then ("#09610D", "TD")
    else if w < 64 then ("#127987", "TS")
    else if w < 83 then ("white", "Cat1")
    else if w < 96 then ("#FF8C00", "Cat2")
    else if w < 113 then ("#FF0000", "Cat3")
    else if w < 137 then ("#8B008B", "Cat4")
    else ("#000000", "Cat5")

/-- One iteration of the accumulation loop in `calculate_ace_value`. -/
def aceStep (ace : ℚ) (wind : Option ℚ) : ℚ :=
  match wind with
  | none => ace
  | some w => if 34 ≤ w then ace + w ^ 2 / 10000 else ace

/-- `calculate_ace_value`: Accumulated Cyclone Energy of a wind sequence. -/
def calculate_ace_value (winds : List (Option ℚ)) : ℚ :=
  winds.foldl aceStep 0

/-- The spec's formulation of ACE: the sum over fixes with known wind of at
least 34 knots of wind squared over 10000. -/
def aceSpecSum (winds : List (Option ℚ)) : ℚ :=
  (((winds.filterMap id).filter (fun w => decide (34 ≤ w))).map
    (fun w => w ^ 2 / 10000)).sum

/-- Python `int(...)` on a rational: truncation toward zero. -/
def pyInt (q : ℚ) : ℤ := if 0 ≤ q then ⌊q⌋ else -⌊-q⌋

/-- The conversion factor `1.15078` (knots to mph). -/
def mphFactor : ℚ := 115078 / 100000

/-- `convert_knots_to_mph`; `none` models both a `NaN` input and the `"N/A"`
result. -/
def convert_knots_to_mph (knots : Option ℚ) : Option ℤ :=
  match knots with
  | none => none
  | some k => some (pyInt (k * mphFactor))

/-! ### Track extractor (`extract_storm_data`) -/

/-- A data row of the detail-page table: the text of its cells. -/
abbrev Row := List String

/-- A detail-page table: its rows (the first row is the header row). -/
abbrev DTable := List Row

/-- The semantic column mapping built from the header cells. -/
structure ColumnIndices where
  lat : Option ℕ := none
  lon : Option ℕ := none
  wind : Option ℕ := none
  pressure : Option ℕ := none
  time : Option ℕ := none
deriving DecidableEq, Repr

/-- One step of the header-mapping loop of `extract_storm_data`: the
`if`/`elif` chain over a lowercased header cell. -/
def assignColumn (ci : ColumnIndices) (i : ℕ) (headerLower : String) : ColumnIndices :=
  if strContains headerLower "lat" && ci.lat.isNone then { ci with lat := some i }
  else if strContains headerLower "lon" && ci.lon.isNone then { ci with lon := some i }
  else if strContains headerLower "usa wind" then { ci with wind := some i }
  else if strContains headerLower "pressure" || strContains headerLower "pres" ||
      strContains headerLower "slp" || strContains headerLower "mslp" then
    { ci with pressure := some i }
  else if strContains headerLower "iso_time" || strContains headerLower "time" then
    { ci with time := some i }
  else ci

/-- The column mapping of a (stripped) header list. -/
def columnIndices (headers : List String) : ColumnIndices :=
  headers.enum.foldl (fun ci p => assignColumn ci p.1 (pyLower p.2)) {}

/-- The indices present in the mapping (`column_indices.values()`). -/
def ciValues (ci : ColumnIndices) : List ℕ :=
  [ci.lat, ci.lon, ci.wind, ci.pressure, ci.time].filterMap id

/-- `max(column_indices.values())`. -/
def maxCol (ci : ColumnIndices) : ℕ := (ciValues ci).foldl max 0

/-- A surviving fix before numeric interpretation: parsed digit data only, so
that concrete runs are decidable. -/
structure RawFix where
  lat : NumParts
  lon : NumParts
  wind : Option NumParts
  pressure : Option NumParts
  datetime : Option String
deriving DecidableEq, Repr

/-- A track fix as stored by the source: position, wind, pressure, timestamp
text. -/
structure Fix where
  lat : ℚ
  lon : ℚ
  wind : Option ℚ
  pressure : Option ℚ
  datetime : Option String
deriving DecidableEq, Repr

/-- Numeric interpretation of a raw fix. -/
def interpFix (r : RawFix) : Fix :=
  ⟨partsToQ r.lat, partsToQ r.lon, r.wind.map partsToQ, r.pressure.map partsToQ,
    r.datetime⟩

/-- Wind/pressure field parsing: absent column or placeholder (`""`/`"-"`) or
parse failure all yield unknown (`np.nan`). -/
def parseOptField (cells : Row) (idx : Option ℕ) : Option NumParts :=
  match idx with
  | none => none
  | some i =>
    let txt := pyStrip (cells.getD i "")
    if txt = "" || txt = "-" then none else parseParts txt

/-- Timestamp reconstruction for one row: returns the updated `current_date`
context and the stored `full_datetime` (`none` when there is no time column;
the raw text is stored as-is when neither pattern applies). -/
def rowTimestamp (ci : ColumnIndices) (currentDate : Option String) (cells : Row) :
    Option String × Option String :=
  match ci.time with
  | none => (currentDate, none)
  | some ti =>
    let timeText := pyStrip (cells.getD ti "")
    if matchFullDT timeText.data then (some (strTake timeText 10), some timeText)
    else if matchHMSPrefix timeText.data && pyTruthy currentDate then
      (currentDate, some (currentDate.getD "" ++ " " ++ timeText))
    else (currentDate, some timeText)

/-- The 6-hour-interval filter: a fix is kept unless its stored timestamp text
is truthy and contains an `hh:mm:ss` pattern whose (leftmost) hour is not a
synoptic hour. -/
def keepFix (fullDatetime : Option String) : Bool :=
  match fullDatetime with
  | none => true
  | some s =>
    if s = "" then true
    else
      match hourSearch s.data with
      | none => true
      | some h => h = 0 || h = 6 || h = 12 || h = 18

/-- Processing of one data row: short rows and rows whose latitude or
longitude fails to parse are skipped (leaving the date context unchanged);
otherwise the timestamp is derived and the synoptic filter applied. -/
def processRow (ci : ColumnIndices) (st : Option String × List RawFix) (cells : Row) :
    Option String × List RawFix :=
  if maxCol ci < cells.length then
    match parseParts (pyStrip (cells.getD (ci.lat.getD 0) "")),
        parseParts (pyStrip (cells.getD (ci.lon.getD 0) "")) with
    | some la, some lo =>
      let wind := parseOptField cells ci.wind
      let pressure := parseOptField cells ci.pressure
      let ts := rowTimestamp ci st.1 cells
      if keepFix ts.2 then (ts.1, st.2 ++ [⟨la, lo, wind, pressure, ts.2⟩])
      else (ts.1, st.2)
    | _, _ => st
  else st

/-- The extraction failure kinds (`ValueError` messages in the source). -/
inductive ExtractionError
  | TableNotFound
  | RequiredColumnsMissing
  | NoValidFixes
deriving DecidableEq, Repr

/-- A table qualifies as the data table when it has a first row whose joined
text contains (case-insensitively) `lat`, `lon` and `wind`. -/
def tableHeaderOk (t : DTable) : Bool :=
  match t.head? with
  | none => false
  | some hr =>
    let ht := pyLower (String.join hr)
    strContains ht "lat" && strContains ht "lon" && strContains ht "wind"

/-- The first qualifying table of the page. -/
def findDataTable (tables : List DTable) : Option DTable :=
  tables.find? tableHeaderOk

/-- The raw phase of `extract_storm_data`: locate the data table, map its
columns, process the data rows. -/
def extractRaw (tables : List DTable) : Except ExtractionError (List RawFix) :=
  match findDataTable tables with
  | none => .error .TableNotFound
  | some t =>
    let headers := (t.headD []).map pyStrip
    let ci := columnIndices headers
    if ci.lat.isNone || ci.lon.isNone then .error .RequiredColumnsMissing
    else
      let fixes := ((t.drop 1).foldl (processRow ci) (none, [])).2
      if fixes.isEmpty then .error .NoValidFixes else .ok fixes

/-- `extract_storm_data` on a pre-parsed page (its list of tables). -/
def extract_storm_data (tables : List DTable) : Except ExtractionError (List Fix) :=
  (extractRaw tables).map (fun l => l.map interpFix)

/-! ### Plot statistics (`create_storm_plot`) -/

/-- `not storm_data['wind'].isna().all()`. -/
def hasWindData (fixes : List Fix) : Bool :=
  fixes.any (fun f => f.wind.isSome)

/-- The category label attached to one plotted point. -/
def perFixCategory (hwd : Bool) (f : Fix) : String :=
  if hwd && f.wind.isSome then (get_intensity_color f.wind).2 else "No Data"

/-- `categories_list` as accumulated by the plotting loop. -/
def categoriesList (fixes : List Fix) : List String :=
  fixes.map (perFixCategory (hasWindData fixes))

/-- Maximum of a rational list (`none` on the empty list), skipping nothing:
callers pass the known winds only, mirroring pandas' NaN-skipping `max`. -/
def listMaxQ : List ℚ → Option ℚ
  | [] => none
  | x :: xs => some (xs.foldl max x)

/-- `storm_data['wind'].max() if has_wind_data else np.nan`. -/
def maxWindOf (fixes : List Fix) : Option ℚ :=
  listMaxQ (fixes.filterMap (·.wind))

/-- `calculate_ace_value(storm_data['wind']) if has_wind_data else 0`. -/
def aceOf (fixes : List Fix) : ℚ :=
  if hasWindData fixes then calculate_ace_value (fixes.map (·.wind)) else 0

/-- `duration_days = len(storm_data) * 6 / 24`. -/
def duration_days (fixes : List Fix) : ℚ :=
  (fixes.length : ℚ) * 6 / 24

/-! ### Storm catalog resolver (`get_storms_for_basin_year`)

The year-index page is modelled after the normalized structure the source
consumes from BeautifulSoup: tables of rows of cells, each cell carrying its
text content and its outgoing links. -/

/-- An `<a href=...>` element: target and link text. -/
structure Link where
  href : String
  text : String
deriving DecidableEq, Repr

/-- A table cell of the year-index page. -/
structure Cell where
  text : String
  links : List Link
deriving DecidableEq, Repr

/-- A row of the year-index page. -/
abbrev CRow := List Cell

/-- A table of the year-index page. -/
abbrev CTable := List CRow

/-- One entry of the `BASINS` configuration. -/
structure Basin where
  code : String
  columnIndex : ℕ
  columnName : String
deriving DecidableEq, Repr

/-- The `BASINS` configuration (codes, column positions, column headers). -/
def BASINS : List Basin :=
  [⟨"NATL", 0, "Northern Atlantic"⟩,
   ⟨"EPAC", 1, "Eastern Pacific"⟩,
   ⟨"WPAC", 2, "Western Pacific"⟩,
   ⟨"NIO", 3, "Northern Indian"⟩,
   ⟨"SIO", 4, "Southern Indian"⟩,
   ⟨"AUS", 5, "Southern Pacific"⟩]

/-- One resolved catalog entry. The locator is the raw link target (URL
resolution against the year-page base is an external concern; `none` means
"no track data"). -/
structure StormEntry where
  display_name : String
  storm_name : String
  url : Option String
  basin : String
deriving DecidableEq, Repr

/-- `get_text()` of a row: concatenation of its cells' text. -/
def rowTextC (r : CRow) : String := String.join (r.map (·.text))

/-- `get_text()` of a table: concatenation of its rows' text. -/
def tableTextC (t : CTable) : String := String.join (t.map rowTextC)

/-- How many basin column headers occur in the table's aggregate text. -/
def basinCount (t : CTable) : ℕ :=
  (BASINS.filter (fun b => strContains (tableTextC t) b.columnName)).length

/-- The first table containing at least 3 basin column headers. -/
def findMainTable (page : List CTable) : Option CTable :=
  page.find? (fun t => 3 ≤ basinCount t)

/-- Index of the first row whose text contains the requested basin's column
header. -/
def findHeaderRowIdx (b : Basin) (t : CTable) : Option ℕ :=
  (t.enum.find? (fun p => strContains (rowTextC p.2) b.columnName)).map (·.1)

/-- `re.sub(r'\*', '', _)`: remove all asterisks. -/
def stripAsterisks (s : String) : String :=
  ⟨s.data.filter (fun c => c ≠ '*')⟩

/-- Consume `[A-Z][a-z]{2}` (a capitalized month abbreviation). -/
def matchMonth : List Char → Option (List Char)
  | u :: l1 :: l2 :: rest =>
    if ('A' ≤ u && u ≤ 'Z') && ('a' ≤ l1 && l1 ≤ 'z') && ('a' ≤ l2 && l2 ≤ 'z') then
      some rest
    else none
  | _ => none

/-- Consume `\d{1,2}-` with the greedy/backtracking behaviour of `re`: two
digits followed by a dash, else one digit followed by a dash. -/
def matchD12Dash : List Char → Option (List Char)
  | a :: b :: rest =>
    if a.isDigit then
      if b.isDigit then
        match rest with
        | '-' :: r => some r
        | _ => none
      else if b = '-' then some rest
      else none
    else none
  | _ => none

/-- Consume a trailing `\d{1,2}` (greedy: two digits when available). -/
def matchD12End : List Char → Option (List Char)
  | a :: b :: rest =>
    if a.isDigit then (if b.isDigit then some rest else some (b :: rest)) else none
  | [a] => if a.isDigit then some [] else none
  | [] => none

/-- Anchored match of `\s+[A-Z][a-z]{2}\s+\d{1,2}-\d{1,2}` (an embedded
"Mon D-D" date range). -/
def matchDateRange1At (cs : List Char) : Option (List Char) :=
  ((((takeWs1 cs).bind matchMonth).bind takeWs1).bind matchD12Dash).bind matchD12End

/-- Anchored match of `\s+[A-Z][a-z]{2}\s+\d{1,2}-[A-Z][a-z]{2}\s+\d{1,2}`
(an embedded "Mon D-Mon D" date range). -/
def matchDateRange2At (cs : List Char) : Option (List Char) :=
  ((((((takeWs1 cs).bind matchMonth).bind takeWs1).bind matchD12Dash).bind
    matchMonth).bind takeWs1).bind matchD12End

/-- `re.sub(pattern, '', _)`: delete every leftmost non-overlapping match.
Each matcher used here consumes at least one character, so the fuel
(initialised to the input length) never runs out. -/
def regexSubAllFuel (m : List Char → Option (List Char)) : ℕ → List Char → List Char
  | 0, cs => cs
  | _ + 1, [] => []
  | n + 1, c :: cs =>
    match m (c :: cs) with
    | some rest => regexSubAllFuel m n rest
    | none => c :: regexSubAllFuel m n cs

/-- `re.sub(pattern, '', s)` on strings. -/
def pySubAll (m : List Char → Option (List Char)) (s : String) : String :=
  ⟨regexSubAllFuel m s.data.length s.data⟩

/-- Name cleaning in the link branch: strip asterisks, delete "Mon D-D"
ranges, delete "Mon D-Mon D" ranges, strip whitespace. -/
def cleanStormNameLinks (s : String) : String :=
  pyStrip (pySubAll matchDateRange2At (pySubAll matchDateRange1At (stripAsterisks s)))

/-- Name cleaning in the text-only branch: strip asterisks, delete "Mon D-D"
ranges, strip whitespace. -/
def cleanStormNameText (s : String) : String :=
  pyStrip (pySubAll matchDateRange1At (stripAsterisks s))

/-- `re.match(r'^[A-Z][a-z]{2}\s+\d', _)`: the line is a bare date fragment. -/
def isDateFragment (s : String) : Bool :=
  match (matchMonth s.data).bind takeWs1 with
  | some (c :: _) => c.isDigit
  | _ => false

/-- The link branch: one entry per link whose target matches the
detailed-track-page naming pattern. -/
def linkEntries (b : Basin) (links : List Link) : List StormEntry :=
  links.filterMap (fun l =>
    if strContains l.href "name=v04r01-" then
      let stormText := pyStrip l.text
      if stormText ≠ "" then
        let clean := cleanStormNameLinks stormText
        let displayName := if clean ≠ "" then clean else stormText
        some ⟨displayName, displayName, some l.href, b.code⟩
      else none
    else none)

/-- The text-only branch, per line: skip date fragments and names of length
at most one. -/
def lineEntries (b : Basin) (line : String) : List StormEntry :=
  if isDateFragment line then []
  else
    let clean := cleanStormNameText line
    if clean ≠ "" ∧ 1 < clean.length then
      [⟨clean ++ " (No track data)", clean, none, b.code⟩]
    else []

/-- The text-only branch of a cell: nothing for an empty, `"-"` or
`"UNNAMED"` cell; otherwise one pass over the stripped non-empty lines. -/
def textEntries (b : Basin) (c : Cell) : List StormEntry :=
  let cellText := pyStrip c.text
  if cellText = "" ∨ cellText = "-" ∨ cellText = "UNNAMED" then []
  else ((splitNl cellText).map pyStrip).filter (fun l => l ≠ "") |>.flatMap (lineEntries b)

/-- All entries produced from one cell: the link branch always runs; the
text-only branch runs only when the cell has no links at all. -/
def cellEntries (b : Basin) (c : Cell) : List StormEntry :=
  linkEntries b c.links ++ (if c.links.isEmpty then textEntries b c else [])

/-- The emission loop of `get_storms_for_basin_year`: locate the main table
and the header row, then walk the rows after it reading the basin's column
(short rows are skipped). -/
def emitStorms (b : Basin) (page : List CTable) : List StormEntry :=
  match findMainTable page with
  | none => []
  | some t =>
    match findHeaderRowIdx b t with
    | none => []
    | some hi =>
      (t.drop (hi + 1)).flatMap (fun row =>
        if row.length ≤ b.columnIndex then []
        else cellEntries b (row.getD b.columnIndex ⟨"", []⟩))

/-- The dedup identifier `f"{storm['storm_name'].upper()}_{storm['basin']}"`. -/
def stormKey (e : StormEntry) : String :=
  pyUpper e.storm_name ++ "_" ++ e.basin

/-- The pair the deduplication is specified over. -/
def pairKey (e : StormEntry) : String × String :=
  (pyUpper e.storm_name, e.basin)

/-- The deduplication loop: keep an entry when its identifier is unseen. -/
def dedupStorms (seen : List String) : List StormEntry → List StormEntry
  | [] => []
  | e :: rest =>
    if stormKey e ∈ seen then dedupStorms seen rest
    else e :: dedupStorms (stormKey e :: seen) rest

/-- Stable insertion into a sorted list (auxiliary to the sort). -/
def orderedInsertB (le : StormEntry → StormEntry → Bool) (a : StormEntry) :
    List StormEntry → List StormEntry
  | [] => [a]
  | b :: l => if le a b then a :: b :: l else b :: orderedInsertB le a l

/-- Stable insertion sort; Python's `list.sort` is a stable sort, so on the
same comparison it produces the same list. -/
def insertionSortB (le : StormEntry → StormEntry → Bool) : List StormEntry → List StormEntry
  | [] => []
  | b :: l => orderedInsertB le b (insertionSortB le l)

/-- The sort key: `unique_storms.sort(key=lambda x: x['storm_name'])`. -/
def nameLeB (x y : StormEntry) : Bool := strLe x.storm_name y.storm_name

/-- `get_storms_for_basin_year` on an already-fetched page: emit, dedup
(keeping first occurrences), sort by storm name. -/
def get_storms_for_basin_year (b : Basin) (page : List CTable) : List StormEntry :=
  insertionSortB nameLeB (dedupStorms [] (emitStorms b page))

/-! ### Concrete inputs used to exercise the pipeline -/

/-- The Atlantic basin configuration entry. -/
def natlBasin : Basin := ⟨"NATL", 0, "Northern Atlantic"⟩

/-- The spec's end-to-end example table. -/
def exampleTable : DTable :=
  [["Lat", "Lon", "USA Wind", "Pressure", "ISO_TIME"],
   ["25.0", "-75.0", "40", "1005", "2020-08-01 00:00:00"],
   ["25.5", "-75.5", "70", "995", "2020-08-01 06:00:00"],
   ["26.0", "-76.0", "50", "1000", "2020-08-01 09:00:00"]]

/-- A table whose single data row has valid coordinates but a time text
matching neither timestamp pattern, while still containing an `hh:mm:ss`
shape with hour 3. -/
def unparseableTimeTable : DTable :=
  [["Lat", "Lon", "USA Wind", "Pressure", "ISO_TIME"],
   ["25.0", "-75.0", "40", "1005", "x03:00:00"]]

/-- A table whose header row lacks both a latitude and a longitude header. -/
def noLatLonTable : DTable :=
  [["USA Wind", "Pressure", "ISO_TIME"],
   ["40", "1005", "2020-08-01 00:00:00"]]

/-- A table whose combined header text contains `lat`, `lon` and `wind`
across cell boundaries, while no single header cell contains `lat`. -/
def splitLatHeaderTable : DTable :=
  [["La", "tLonWind"],
   ["25.0", "-75.0"]]

/-- A table with latitude and longitude headers but no parseable data row. -/
def noValidRowTable : DTable :=
  [["Lat", "Lon", "Wind"],
   ["x", "y", "z"]]

/-- A year-index page with one catalog table: a header row naming three
basins, then one row whose Atlantic cell holds three track links, the first
two resolving to the same storm name. -/
def catalogPage : List CTable :=
  [[[⟨"Northern AtlanticEastern PacificWestern Pacific", []⟩],
    [⟨"", [⟨"x?name=v04r01-1", "ALPHA Aug 1-3"⟩, ⟨"x?name=v04r01-2", "ALPHA*"⟩,
           ⟨"x?name=v04r01-3", "BETA"⟩]⟩]]]

/-- A year-index page whose only catalog-like table names three basins other
than the Atlantic, so the Atlantic header row is never found. -/
def noAtlanticHeaderPage : List CTable :=
  [[[⟨"Eastern PacificWestern PacificNorthern Indian", []⟩]]]

/-! ## Theorems -/

/-! ### Band evaluation lemmas for `get_intensity_color` -/

theorem gic_td (w : ℚ) (h : w < 34) : get_intensity_color (some w) = ("#09610D", "TD") := by
  simp [get_intensity_color, h]

theorem gic_ts (w : ℚ) (h1 : 34 ≤ w) (h2 : w < 64) :
    get_intensity_color (some w) = ("#127987", "TS") := by
  simp [get_intensity_color, not_lt.2 h1, h2]

theorem gic_c1 (w : ℚ) (h1 : 64 ≤ w) (h2 : w < 83) :
    get_intensity_color (some w) = ("white", "Cat1") := by
  have h0 : ¬ w < 34 := not_lt.2 (by linarith)
  simp [get_intensity_color, h0, not_lt.2 h1, h2]

theorem gic_c2 (w : ℚ) (h1 : 83 ≤ w) (h2 : w < 96) :
    get_intensity_color (some w) = ("#FF8C00", "Cat2") := by
  have h34 : ¬ w < 34 := not_lt.2 (by linarith)
  have h64 : ¬ w < 64 := not_lt.2 (by linarith)
  simp [get_intensity_color, h34, h64, not_lt.2 h1, h2]

theorem gic_c3 (w : ℚ) (h1 : 96 ≤ w) (h2 : w < 113) :
    get_intensity_color (some w) = ("#FF0000", "Cat3") := by
  have h34 : ¬ w < 34 := not_lt.2 (by linarith)
  have h64 : ¬ w < 64 := not_lt.2 (by linarith)
  have h83 : ¬ w < 83 := not_lt.2 (by linarith)
  simp [get_intensity_color, h34, h64, h83, not_lt.2 h1, h2]

theorem gic_c4 (w : ℚ) (h1 : 113 ≤ w) (h2 : w < 137) :
    get_intensity_color (some w) = ("#8B008B", "Cat4") := by
  have h34 : ¬ w < 34 := not_lt.2 (by linarith)
  have h64 : ¬ w < 64 := not_lt.2 (by linarith)
  have h83 : ¬ w < 83 := not_lt.2 (by linarith)
  have h96 : ¬ w < 96 := not_lt.2 (by linarith)
  simp [get_intensity_color, h34, h64, h83, h96, not_lt.2 h1, h2]

theorem gic_c5 (w : ℚ) (h1 : 137 ≤ w) :
    get_intensity_color (some w) = ("#000000", "Cat5") := by
  have h34 : ¬ w < 34 := not_lt.2 (by linarith)
  have h64 : ¬ w < 64 := not_lt.2 (by linarith)
  have h83 : ¬ w < 83 := not_lt.2 (by linarith)
  have h96 : ¬ w < 96 := not_lt.2 (by linarith)
  have h113 : ¬ w < 113 := not_lt.2 (by linarith)
  simp [get_intensity_color, h34, h64, h83, h96, h113, not_lt.2 h1]

/-- C2: for every known wind speed `w ≥ 0`, the per-fix category function
returns exactly one of TD, TS, Cat1..Cat5, partitioning the half-open
intervals `[0,34) [34,64) [64,83) [83,96) [96,113) [113,137) [137,∞)`, with
each boundary value mapping to the higher band. -/
theorem C2_category_partition (w : ℚ) (h : 0 ≤ w) :
    ((get_intensity_color (some w)).2 = "TD" ∨ (get_intensity_color (some w)).2 = "TS" ∨
      (get_intensity_color (some w)).2 = "Cat1" ∨ (get_intensity_color (some w)).2 = "Cat2" ∨
      (get_intensity_color (some w)).2 = "Cat3" ∨ (get_intensity_color (some w)).2 = "Cat4" ∨
      (get_intensity_color (some w)).2 = "Cat5") ∧
    ((get_intensity_color (some w)).2 = "TD" ↔ w < 34) ∧
    ((get_intensity_color (some w)).2 = "TS" ↔ 34 ≤ w ∧ w < 64) ∧
    ((get_intensity_color (some w)).2 = "Cat1" ↔ 64 ≤ w ∧ w < 83) ∧
    ((get_intensity_color (some w)).2 = "Cat2" ↔ 83 ≤ w ∧ w < 96) ∧
    ((get_intensity_color (some w)).2 = "Cat3" ↔ 96 ≤ w ∧ w < 113) ∧
    ((get_intensity_color (some w)).2 = "Cat4" ↔ 113 ≤ w ∧ w < 137) ∧
    ((get_intensity_color (some w)).2 = "Cat5" ↔ 137 ≤ w) := by
  rcases lt_or_le w 34 with h1 | h1
  · rw [gic_td w h1]
    refine ⟨by simp, ?_, ?_, ?_, ?_, ?_, ?_, ?_⟩ <;> simp <;>
      first
        | linarith
        | (constructor <;> linarith)
        | (intro hq; linarith)
        | (intro hq; constructor <;> linarith)
        | (rintro ⟨hq1, hq2⟩; linarith)
        | (intro hq1 hq2; linarith)
  · rcases lt_or_le w 64 with h2 | h2
    · rw [gic_ts w h1 h2]
      refine ⟨by simp, ?_, ?_, ?_, ?_, ?_, ?_, ?_⟩ <;> simp <;>
        first
          | linarith
          | (constructor <;> linarith)
          | (intro hq; linarith)
          | (intro hq; constructor <;> linarith)
          | (rintro ⟨hq1, hq2⟩; linarith)
          | (intro hq1 hq2; linarith)
    · rcases lt_or_le w 83 with h3 | h3
      · rw [gic_c1 w h2 h3]
        refine ⟨by simp, ?_, ?_, ?_, ?_, ?_, ?_, ?_⟩ <;> simp <;>
          first
            | linarith
            | (constructor <;> linarith)
            | (intro hq; linarith)
            | (intro hq; constructor <;> linarith)
            | (rintro ⟨hq1, hq2⟩; linarith)
            | (intro hq1 hq2; linarith)
      · rcases lt_or_le w 96 with h4 | h4
        · rw [gic_c2 w h3 h4]
          refine ⟨by simp, ?_, ?_, ?_, ?_, ?_, ?_, ?_⟩ <;> simp <;>
            first
              | linarith
              | (constructor <;> linarith)
              | (intro hq; linarith)
              | (intro hq; constructor <;> linarith)
              | (rintro ⟨hq1, hq2⟩; linarith)
              | (intro hq1 hq2; linarith)
        · rcases lt_or_le w 113 with h5 | h5
          · rw [gic_c3 w h4 h5]
            refine ⟨by simp, ?_, ?_, ?_, ?_, ?_, ?_, ?_⟩ <;> simp <;>
              first
                | linarith
                | (constructor <;> linarith)
                | (intro hq; linarith)
                | (intro hq; constructor <;> linarith)
                | (rintro ⟨hq1, hq2⟩; linarith)
                | (intro hq1 hq2; linarith)
          · rcases lt_or_le w 137 with h6 | h6
            · rw [gic_c4 w h5 h6]
              refine ⟨by simp, ?_, ?_, ?_, ?_, ?_, ?_, ?_⟩ <;> simp <;>
                first
                  | linarith
                  | (constructor <;> linarith)
                  | (intro hq; linarith)
                  | (intro hq; constructor <;> linarith)
                  | (rintro ⟨hq1, hq2⟩; linarith)
                  | (intro hq1 hq2; linarith)
            · rw [gic_c5 w h6]
              refine ⟨by simp, ?_, ?_, ?_, ?_, ?_, ?_, ?_⟩ <;> simp <;>
                first
                  | linarith
                  | (constructor <;> linarith)
                  | (intro hq; linarith)
                  | (intro hq; constructor <;> linarith)
                  | (rintro ⟨hq1, hq2⟩; linarith)
                  | (intro hq1 hq2; linarith)

/-- Witness for C2 at the boundary value `w = 34`. -/
theorem C2_category_partition_witness :
    (get_intensity_color (some (34 : ℚ))).2 = "TS" := by
  have h := C2_category_partition 34 (by norm_num)
  exact h.2.2.1.mpr ⟨le_refl 34, by norm_num⟩


/-! ### ACE lemmas -/

theorem aceStep_decomp (a : ℚ) (w : Option ℚ) : aceStep a w = a + aceStep 0 w := by
  cases w with
  | none => simp [aceStep]
  | some v => simp only [aceStep]; split <;> ring

theorem foldl_aceStep_shift (l : List (Option ℚ)) :
    ∀ a : ℚ, l.foldl aceStep a = a + l.foldl aceStep 0 := by
  induction l with
  | nil => intro a; simp
  | cons w l ih =>
    intro a
    simp only [List.foldl_cons]
    rw [ih (aceStep a w), ih (aceStep 0 w), aceStep_decomp a w]
    ring

theorem calculate_ace_value_cons (w : Option ℚ) (l : List (Option ℚ)) :
    calculate_ace_value (w :: l) = aceStep 0 w + calculate_ace_value l := by
  simp only [calculate_ace_value, List.foldl_cons]
  rw [foldl_aceStep_shift]

theorem calculate_ace_value_eq_spec (l : List (Option ℚ)) :
    calculate_ace_value l = aceSpecSum l := by
  induction l with
  | nil => rfl
  | cons w l ih =>
    rw [calculate_ace_value_cons]
    cases w with
    | none => simpa [aceSpecSum, List.filterMap_cons, aceStep] using ih
    | some v =>
      have hstep : aceStep 0 (some v) = if 34 ≤ v then v ^ 2 / 10000 else 0 := by
        simp only [aceStep]
        split <;> ring
      by_cases hv : 34 ≤ v
      · have hspec : aceSpecSum (some v :: l) = v ^ 2 / 10000 + aceSpecSum l := by
          simp [aceSpecSum, List.filterMap_cons, List.filter_cons, hv]
        rw [hspec, hstep, if_pos hv, ih]
      · have hspec : aceSpecSum (some v :: l) = aceSpecSum l := by
          simp [aceSpecSum, List.filterMap_cons, List.filter_cons, hv]
        rw [hspec, hstep, if_neg hv, ih]
        ring

theorem aceStep_zero_nonneg (w : Option ℚ) : 0 ≤ aceStep 0 w := by
  cases w with
  | none => simp [aceStep]
  | some v =>
    simp only [aceStep]
    split
    · positivity
    · exact le_refl 0

theorem calculate_ace_value_nonneg (l : List (Option ℚ)) : 0 ≤ calculate_ace_value l := by
  rw [calculate_ace_value_eq_spec]
  apply List.sum_nonneg
  intro x hx
  simp only [aceSpecSum, List.mem_map] at hx
  obtain ⟨w, hw, rfl⟩ := hx
  positivity

theorem calculate_ace_value_append (l : List (Option ℚ)) (w : Option ℚ) :
    calculate_ace_value l ≤ calculate_ace_value (l ++ [w]) := by
  simp only [calculate_ace_value, List.foldl_append, List.foldl_cons, List.foldl_nil]
  rw [aceStep_decomp]
  have h := aceStep_zero_nonneg w
  linarith

theorem calculate_ace_value_all_small (l : List (Option ℚ))
    (h : ∀ v : ℚ, some v ∈ l → v < 34) : calculate_ace_value l = 0 := by
  induction l with
  | nil => rfl
  | cons w l ih =>
    rw [calculate_ace_value_cons, ih (fun v hv => h v (List.mem_cons_of_mem _ hv))]
    cases w with
    | none => simp [aceStep]
    | some v => simp [aceStep, not_le.2 (h v (List.mem_cons_self _ _))]

/-- C3: ACE equals the sum over fixes with known wind of at least 34 knots of
wind squared over 10000; hence it is non-negative, appending a fix never
decreases it, and a track whose known winds are all below 34 knots has ACE
exactly 0. -/
theorem C3_ace_properties (winds : List (Option ℚ)) (w : Option ℚ) :
    calculate_ace_value winds = aceSpecSum winds ∧
    0 ≤ calculate_ace_value winds ∧
    calculate_ace_value winds ≤ calculate_ace_value (winds ++ [w]) ∧
    ((∀ v : ℚ, some v ∈ winds → v < 34) → calculate_ace_value winds = 0) :=
  ⟨calculate_ace_value_eq_spec winds, calculate_ace_value_nonneg winds,
   calculate_ace_value_append winds w, calculate_ace_value_all_small winds⟩

/-- Witness for C3. -/
theorem C3_ace_properties_witness :
    calculate_ace_value [some (20 : ℚ), none] = aceSpecSum [some (20 : ℚ), none] ∧
    0 ≤ calculate_ace_value [some (20 : ℚ), none] ∧
    calculate_ace_value [some (20 : ℚ), none] ≤
      calculate_ace_value ([some (20 : ℚ), none] ++ [some 40]) ∧
    calculate_ace_value [some (20 : ℚ), none] = 0 := by
  have h := C3_ace_properties [some (20 : ℚ), none] (some 40)
  refine ⟨h.1, h.2.1, h.2.2.1, h.2.2.2 ?_⟩
  intro v hv
  simp at hv
  subst hv
  norm_num


/-! ### Knots-to-mph lemmas -/

/-- C8: for a defined `max_wind`, `max_wind_mph` is `max_wind` times 1.15078
truncated toward zero (so 70 knots gives 80 mph), and it is `"N/A"` (here
`none`) when `max_wind` is undefined. -/
theorem C8_mph_truncation :
    convert_knots_to_mph none = none ∧
    (∀ q : ℚ, 0 ≤ q → ∃ z : ℤ, convert_knots_to_mph (some q) = some z ∧
      (z : ℚ) ≤ q * mphFactor ∧ q * mphFactor < z + 1) ∧
    (∀ q : ℚ, q < 0 → ∃ z : ℤ, convert_knots_to_mph (some q) = some z ∧
      (z : ℚ) - 1 < q * mphFactor ∧ q * mphFactor ≤ z) ∧
    convert_knots_to_mph (some 70) = some 80 := by
  have hf : (0 : ℚ) < mphFactor := by norm_num [mphFactor]
  refine ⟨rfl, ?_, ?_, ?_⟩
  · intro q hq
    have hq' : 0 ≤ q * mphFactor := by positivity
    refine ⟨⌊q * mphFactor⌋, ?_, Int.floor_le _, Int.lt_floor_add_one _⟩
    simp [convert_knots_to_mph, pyInt, hq']
  · intro q hq
    have hq' : ¬ (0 ≤ q * mphFactor) := not_le.2 (mul_neg_of_neg_of_pos hq hf)
    refine ⟨-⌊-(q * mphFactor)⌋, ?_, ?_, ?_⟩
    · simp [convert_knots_to_mph, pyInt, hq']
    · have h1 := Int.lt_floor_add_one (-(q * mphFactor))
      push_cast
      linarith
    · have h1 := Int.floor_le (-(q * mphFactor))
      push_cast
      linarith
  · have h1 : (70 : ℚ) * mphFactor = 805546 / 10000 := by norm_num [mphFactor]
    have h2 : (0 : ℚ) ≤ 70 * mphFactor := by rw [h1]; norm_num
    have h3 : ⌊(70 : ℚ) * mphFactor⌋ = 80 := by
      rw [Int.floor_eq_iff, h1]
      constructor <;> norm_num
    simp [convert_knots_to_mph, pyInt, h2, h3]

/-- Witness for C8 at 70 knots and at a negative input. -/
theorem C8_mph_truncation_witness :
    (∃ z : ℤ, convert_knots_to_mph (some (70 : ℚ)) = some z ∧
      (z : ℚ) ≤ 70 * mphFactor ∧ 70 * mphFactor < z + 1) ∧
    (∃ z : ℤ, convert_knots_to_mph (some (-1 : ℚ)) = some z ∧
      (z : ℚ) - 1 < -1 * mphFactor ∧ -1 * mphFactor ≤ z) :=
  ⟨C8_mph_truncation.2.1 70 (by norm_num), C8_mph_truncation.2.2.1 (-1) (by norm_num)⟩


/-! ### "No Data" labelling lemmas -/

theorem gic_some_ne_nodata (w : ℚ) : (get_intensity_color (some w)).2 ≠ "No Data" := by
  simp only [get_intensity_color]
  split_ifs <;> simp

/-- C9: `get_intensity_color` maps an unknown (`NaN`) wind to the `TD`
category, identical to winds below 34 knots and never `"No Data"`; the
`"No Data"` label comes only from the separate missing-wind check of the
plotting loop, which also labels every fix `"No Data"` when all winds of the
track are unknown. -/
theorem C9_no_data_handling :
    (get_intensity_color none).2 = "TD" ∧
    (get_intensity_color none).2 ≠ "No Data" ∧
    (∀ w : ℚ, w < 34 → get_intensity_color (some w) = get_intensity_color none) ∧
    (∀ w : ℚ, (get_intensity_color (some w)).2 ≠ "No Data") ∧
    (∀ (hwd : Bool) (f : Fix),
      perFixCategory hwd f = "No Data" ↔ (hwd = false ∨ f.wind = none)) ∧
    (∀ fixes : List Fix, (∀ f ∈ fixes, f.wind = none) →
      categoriesList fixes = List.replicate fixes.length "No Data") := by
  refine ⟨rfl, by simp [get_intensity_color], ?_, gic_some_ne_nodata, ?_, ?_⟩
  · intro w hw
    rw [gic_td w hw]
    rfl
  · intro hwd f
    cases hwd with
    | false => simp [perFixCategory]
    | true =>
      cases hf : f.wind with
      | none => simp [perFixCategory, hf]
      | some v => simp [perFixCategory, hf, gic_some_ne_nodata v]
  · intro fixes hall
    have hw : hasWindData fixes = false := by
      simp only [hasWindData, List.any_eq_false]
      intro f hf
      simp [hall f hf]
    simp only [categoriesList, hw]
    rw [List.map_congr_left (g := fun _ => "No Data") (fun f _ => by simp [perFixCategory])]
    exact List.map_const' fixes "No Data"

/-- Witness for C9. -/
theorem C9_no_data_handling_witness :
    get_intensity_color (some (20 : ℚ)) = get_intensity_color none ∧
    (perFixCategory true ⟨0, 0, none, none, none⟩ = "No Data" ↔
      (true = false ∨ (Fix.mk 0 0 none none none).wind = none)) ∧
    categoriesList [⟨0, 0, none, none, none⟩] = List.replicate 1 "No Data" := by
  have h := C9_no_data_handling
  refine ⟨h.2.2.1 20 (by norm_num), h.2.2.2.2.1 true _, ?_⟩
  have h2 := h.2.2.2.2.2 [⟨0, 0, none, none, none⟩] (by intro f hf; simp at hf; rw [hf])
  simpa using h2

/-! ### Text-only catalog branch lemmas -/

/-- C10: in the catalog resolver's text-only branch, a cell whose entire
stripped text is empty, `"-"` or `"UNNAMED"` produces no entry, and an
individual line whose cleaned storm name has length at most 1 produces no
entry. -/
theorem C10_text_exclusions (b : Basin) (c : Cell) (line : String) :
    (c.links = [] →
      (pyStrip c.text = "" ∨ pyStrip c.text = "-" ∨ pyStrip c.text = "UNNAMED") →
      cellEntries b c = []) ∧
    ((cleanStormNameText line).length ≤ 1 → lineEntries b line = []) := by
  constructor
  · intro hl ht
    simp [cellEntries, hl, linkEntries, textEntries, ht]
  · intro hlen
    simp only [lineEntries]
    split
    · rfl
    · rw [if_neg]
      intro hcon
      exact absurd hcon.2 (not_lt.2 hlen)

/-- Witness for C10: a cell whose stripped text is `-`, and the line `A*`
whose cleaned name has length 1. -/
theorem C10_text_exclusions_witness :
    cellEntries natlBasin ⟨" - ", []⟩ = [] ∧ lineEntries natlBasin "A*" = [] := by
  have h := C10_text_exclusions natlBasin ⟨" - ", []⟩ "A*"
  exact ⟨h.1 rfl (by right; left; decide), h.2 (by decide)⟩


/-! ### Catalog degradation lemmas -/

/-- C7: when no table of the year-index page mentions at least 3 of the 6
basin column headers, or when the requested basin's header row is not found
in the located table, the resolver returns an empty sequence instead of
raising. -/
theorem C7_degrade_to_empty (b : Basin) (page : List CTable) :
    ((∀ t ∈ page, basinCount t < 3) → get_storms_for_basin_year b page = []) ∧
    (∀ t, findMainTable page = some t → findHeaderRowIdx b t = none →
      get_storms_for_basin_year b page = []) := by
  constructor
  · intro hall
    have hmain : findMainTable page = none := by
      rw [findMainTable, List.find?_eq_none]
      intro t ht
      simp only [decide_eq_true_eq]
      exact not_le.2 (hall t ht)
    simp [get_storms_for_basin_year, emitStorms, hmain, dedupStorms, insertionSortB]
  · intro t hmain hhdr
    simp [get_storms_for_basin_year, emitStorms, hmain, hhdr, dedupStorms, insertionSortB]

/-- Witness for C7: the empty page, and a page whose main table lacks the
Atlantic column header. -/
theorem C7_degrade_to_empty_witness :
    get_storms_for_basin_year natlBasin [] = [] ∧
    get_storms_for_basin_year natlBasin noAtlanticHeaderPage = [] := by
  refine ⟨(C7_degrade_to_empty natlBasin []).1 ?_,
    (C7_degrade_to_empty natlBasin noAtlanticHeaderPage).2
      (noAtlanticHeaderPage.getD 0 []) (by decide) (by decide)⟩
  intro t ht
  simp at ht


/-! ### End-to-end example -/

/-- C1: on the spec's example table, extraction yields exactly 2 fixes (the
hour-9 row is dropped), and the derived metrics are `max_wind = 70`,
`category_per_fix = ["TS", "Cat1"]`, `ace = 0.65 = 13/20` and
`duration_days = 0.5 = 1/2`. -/
theorem C1_end_to_end_example :
    ∃ fixes : List Fix,
      extract_storm_data [exampleTable] = .ok fixes ∧
      fixes.length = 2 ∧
      maxWindOf fixes = some 70 ∧
      categoriesList fixes = ["TS", "Cat1"] ∧
      aceOf fixes = 13 / 20 ∧
      duration_days fixes = 1 / 2 := by
  have hraw : extractRaw [exampleTable] =
      .ok [⟨⟨false, 25, 0, 1⟩, ⟨true, 75, 0, 1⟩, some ⟨false, 40, 0, 0⟩,
            some ⟨false, 1005, 0, 0⟩, some "2020-08-01 00:00:00"⟩,
           ⟨⟨false, 25, 5, 1⟩, ⟨true, 75, 5, 1⟩, some ⟨false, 70, 0, 0⟩,
            some ⟨false, 995, 0, 0⟩, some "2020-08-01 06:00:00"⟩] := by decide
  have h40 := gic_ts 40 (by norm_num) (by norm_num)
  have h70 := gic_c1 70 (by norm_num) (by norm_num)
  refine ⟨[⟨25, -75, some 40, some 1005, some "2020-08-01 00:00:00"⟩,
           ⟨51 / 2, -151 / 2, some 70, some 995, some "2020-08-01 06:00:00"⟩],
    ?_, rfl, ?_, ?_, ?_, ?_⟩
  · rw [extract_storm_data, hraw]
    simp only [Except.map, List.map_cons, List.map_nil, interpFix]
    norm_num [partsToQ]
  · rw [maxWindOf]
    simp only [List.filterMap_cons, List.filterMap_nil, listMaxQ, List.foldl_cons,
      List.foldl_nil]
    rw [max_eq_right (by norm_num)]
  · simp [categoriesList, hasWindData, perFixCategory, h40, h70]
  · norm_num [aceOf, hasWindData, calculate_ace_value_cons, aceStep, calculate_ace_value]
  · norm_num [duration_days]


/-! ### Synoptic-filter analysis (C4) -/

/-- C4 counterexample: the time text `x03:00:00` matches neither timestamp
pattern (no timestamp can be derived), yet the row is dropped, so the
extraction of a table whose only row carries it fails with `NoValidFixes`
instead of keeping the fix unconditionally. -/
theorem C4_counterexample :
    matchFullDT "x03:00:00".data = false ∧
    matchHMSPrefix "x03:00:00".data = false ∧
    extract_storm_data [unparseableTimeTable] = .error .NoValidFixes := by
  refine ⟨by decide, by decide, ?_⟩
  have hraw : extractRaw [unparseableTimeTable] = .error .NoValidFixes := by decide
  rw [extract_storm_data, hraw]
  rfl

/-- C4 (amended): a fix with parseable coordinates is kept if and only if its
stored timestamp text is absent or empty, contains no `hh:mm:ss` pattern, or
the leftmost such pattern's hour lies in {0, 6, 12, 18}. In particular a row
with a derived timestamp is filtered by its hour, but an unparseable time
text is not always kept: an embedded non-synoptic `hh:mm:ss` also drops the
fix (see `C4_counterexample`). -/
theorem C4_amended (ci : ColumnIndices) (cd : Option String) (cells : Row) :
    keepFix none = true ∧
    (∀ s : String, keepFix (some s) = true ↔
      (s = "" ∨ hourSearch s.data = none ∨
        ∃ h, hourSearch s.data = some h ∧ (h = 0 ∨ h = 6 ∨ h = 12 ∨ h = 18))) ∧
    (maxCol ci < cells.length →
      (parseParts (pyStrip (cells.getD (ci.lat.getD 0) ""))).isSome →
      (parseParts (pyStrip (cells.getD (ci.lon.getD 0) ""))).isSome →
      ((processRow ci (cd, []) cells).2 ≠ [] ↔
        keepFix (rowTimestamp ci cd cells).2 = true)) := by
  refine ⟨rfl, ?_, ?_⟩
  · intro s
    by_cases hs : s = ""
    · subst hs
      simp [keepFix]
    · simp only [keepFix, if_neg hs]
      cases hh : hourSearch s.data with
      | none => simp [hs, hh]
      | some h =>
        simp [hs, hh]
        tauto
  · intro hlen hlat hlon
    obtain ⟨p, hp⟩ := Option.isSome_iff_exists.1 hlat
    obtain ⟨q, hq⟩ := Option.isSome_iff_exists.1 hlon
    simp only [processRow, if_pos hlen, hp, hq]
    cases hk : keepFix (rowTimestamp ci cd cells).2 <;> simp [hk]

/-- Witness for C4 amended: a synoptic-hour row is kept. -/
theorem C4_amended_witness :
    (processRow ⟨some 0, some 1, some 2, some 3, some 4⟩ (none, [])
        ["25.0", "-75.0", "40", "1005", "2020-08-01 06:00:00"]).2 ≠ [] ↔
      keepFix (rowTimestamp ⟨some 0, some 1, some 2, some 3, some 4⟩ none
        ["25.0", "-75.0", "40", "1005", "2020-08-01 06:00:00"]).2 = true :=
  (C4_amended ⟨some 0, some 1, some 2, some 3, some 4⟩ none
    ["25.0", "-75.0", "40", "1005", "2020-08-01 06:00:00"]).2.2
    (by decide) (by decide) (by decide)

/-! ### Column-mapping lemmas (C5) -/

theorem assignColumn_lat (ci : ColumnIndices) (i : ℕ) (h : String) :
    (assignColumn ci i h).lat =
      if strContains h "lat" && ci.lat.isNone then some i else ci.lat := by
  simp only [assignColumn]
  split_ifs <;> simp_all

theorem assignColumn_lon_of_not_contains (ci : ColumnIndices) (i : ℕ) (h : String)
    (hc : strContains h "lon" = false) : (assignColumn ci i h).lon = ci.lon := by
  simp only [assignColumn]
  split_ifs <;> simp_all

theorem foldl_assign_lat_none (l : List (ℕ × String))
    (hall : ∀ p ∈ l, strContains (pyLower p.2) "lat" = false) :
    ∀ ci : ColumnIndices, ci.lat = none →
      (l.foldl (fun ci p => assignColumn ci p.1 (pyLower p.2)) ci).lat = none := by
  induction l with
  | nil => intro ci h; simpa using h
  | cons p l ih =>
    intro ci h
    simp only [List.foldl_cons]
    refine ih (fun q hq => hall q (List.mem_cons_of_mem _ hq)) _ ?_
    rw [assignColumn_lat, if_neg (by simp [hall p (List.mem_cons_self _ _)])]
    exact h

theorem foldl_assign_lon_none (l : List (ℕ × String))
    (hall : ∀ p ∈ l, strContains (pyLower p.2) "lon" = false) :
    ∀ ci : ColumnIndices, ci.lon = none →
      (l.foldl (fun ci p => assignColumn ci p.1 (pyLower p.2)) ci).lon = none := by
  induction l with
  | nil => intro ci h; simpa using h
  | cons p l ih =>
    intro ci h
    simp only [List.foldl_cons]
    refine ih (fun q hq => hall q (List.mem_cons_of_mem _ hq)) _ ?_
    rw [assignColumn_lon_of_not_contains _ _ _ (hall p (List.mem_cons_self _ _))]
    exact h

theorem mem_of_mem_enum {l : List String} {p : ℕ × String} (hp : p ∈ l.enum) :
    p.2 ∈ l := by
  have h1 : p.2 ∈ l.enum.map Prod.snd := List.mem_map_of_mem Prod.snd hp
  rwa [List.enum_map_snd] at h1

theorem columnIndices_lat_none (headers : List String)
    (h : ∀ s ∈ headers, strContains (pyLower s) "lat" = false) :
    (columnIndices headers).lat = none :=
  foldl_assign_lat_none headers.enum
    (fun p hp => h p.2 (mem_of_mem_enum hp)) {} rfl

theorem columnIndices_lon_none (headers : List String)
    (h : ∀ s ∈ headers, strContains (pyLower s) "lon" = false) :
    (columnIndices headers).lon = none :=
  foldl_assign_lon_none headers.enum
    (fun p hp => h p.2 (mem_of_mem_enum hp)) {} rfl


theorem processRow_skip (ci : ColumnIndices) (st : Option String × List RawFix)
    (row : Row)
    (h : row.length ≤ maxCol ci ∨
      parseParts (pyStrip (row.getD (ci.lat.getD 0) "")) = none ∨
      parseParts (pyStrip (row.getD (ci.lon.getD 0) "")) = none) :
    processRow ci st row = st := by
  rcases h with h | h | h
  · simp [processRow, not_lt.2 h]
  · simp only [processRow, h]
    split <;> rfl
  · simp only [processRow, h]
    cases parseParts (pyStrip (row.getD (ci.lat.getD 0) "")) <;> split <;> rfl

theorem foldl_processRow_skip (ci : ColumnIndices) (rows : List Row)
    (h : ∀ row ∈ rows, row.length ≤ maxCol ci ∨
      parseParts (pyStrip (row.getD (ci.lat.getD 0) "")) = none ∨
      parseParts (pyStrip (row.getD (ci.lon.getD 0) "")) = none) :
    ∀ st, rows.foldl (processRow ci) st = st := by
  induction rows with
  | nil => intro st; rfl
  | cons row rows ih =>
    intro st
    simp only [List.foldl_cons]
    rw [processRow_skip ci st row (h row (List.mem_cons_self _ _))]
    exact ih (fun r hr => h r (List.mem_cons_of_mem _ hr)) st

/-- C5 counterexample: a table whose header lacks both `lat` and `lon` is not
even located by the table-finding step, so extraction fails with
`TableNotFound`, a kind distinct from `RequiredColumnsMissing`. -/
theorem C5_counterexample :
    extract_storm_data [noLatLonTable] = .error .TableNotFound ∧
    ExtractionError.TableNotFound ≠ ExtractionError.RequiredColumnsMissing := by
  constructor
  · have hraw : extractRaw [noLatLonTable] = .error .TableNotFound := by decide
    rw [extract_storm_data, hraw]
    rfl
  · decide

/-- C5 (amended): a page whose tables' header rows lack `lat` (or `lon`)
fails with `TableNotFound` (the table-location step already requires `lat`,
`lon` and `wind` in the joined header text); `RequiredColumnsMissing` arises
for a located table none of whose individual header cells contains `lat` (or
none `lon`); a located table with both columns mapped but no data row with a
parseable position fails with `NoValidFixes`. -/
theorem C5_amended (tables : List DTable) (t : DTable) :
    ((∀ t' ∈ tables, ∀ hr, t'.head? = some hr →
        (strContains (pyLower (String.join hr)) "lat" = false ∨
         strContains (pyLower (String.join hr)) "lon" = false)) →
      extract_storm_data tables = .error .TableNotFound) ∧
    (findDataTable tables = some t →
      ((∀ s ∈ (t.headD []).map pyStrip, strContains (pyLower s) "lat" = false) ∨
       (∀ s ∈ (t.headD []).map pyStrip, strContains (pyLower s) "lon" = false)) →
      extract_storm_data tables = .error .RequiredColumnsMissing) ∧
    (findDataTable tables = some t →
      (columnIndices ((t.headD []).map pyStrip)).lat.isSome →
      (columnIndices ((t.headD []).map pyStrip)).lon.isSome →
      (∀ row ∈ t.drop 1,
        row.length ≤ maxCol (columnIndices ((t.headD []).map pyStrip)) ∨
        parseParts (pyStrip (row.getD
          ((columnIndices ((t.headD []).map pyStrip)).lat.getD 0) "")) = none ∨
        parseParts (pyStrip (row.getD
          ((columnIndices ((t.headD []).map pyStrip)).lon.getD 0) "")) = none) →
      extract_storm_data tables = .error .NoValidFixes) := by
  refine ⟨?_, ?_, ?_⟩
  · intro hall
    have hfind : findDataTable tables = none := by
      rw [findDataTable, List.find?_eq_none]
      intro t' ht'
      simp only [tableHeaderOk]
      cases hh : t'.head? with
      | none => simp
      | some hr =>
        rcases hall t' ht' hr hh with hc | hc <;> simp [hc]
    rw [extract_storm_data, extractRaw, hfind]
    rfl
  · intro hfind hcols
    rcases hcols with hc | hc
    · have h1 := columnIndices_lat_none _ hc
      simp only [List.headD_eq_head?_getD] at h1
      simp [extract_storm_data, extractRaw, hfind, h1, Except.map]
    · have h1 := columnIndices_lon_none _ hc
      simp only [List.headD_eq_head?_getD] at h1
      simp [extract_storm_data, extractRaw, hfind, h1, Except.map]
  · intro hfind hlat hlon hrows
    rw [extract_storm_data, extractRaw, hfind]
    have hcond : ((columnIndices ((t.headD []).map pyStrip)).lat.isNone ||
        (columnIndices ((t.headD []).map pyStrip)).lon.isNone) = false := by
      simp only [Bool.or_eq_false_iff, Option.isNone_eq_false_iff]
      exact ⟨hlat, hlon⟩
    simp only [hcond, Bool.false_eq_true, if_false]
    rw [foldl_processRow_skip _ _ hrows]
    rfl

/-- Witness for C5 amended: the three failure kinds at three concrete
tables. -/
theorem C5_amended_witness :
    extract_storm_data [noLatLonTable] = .error .TableNotFound ∧
    extract_storm_data [splitLatHeaderTable] = .error .RequiredColumnsMissing ∧
    extract_storm_data [noValidRowTable] = .error .NoValidFixes := by
  refine ⟨(C5_amended [noLatLonTable] []).1 ?_,
    (C5_amended [splitLatHeaderTable] splitLatHeaderTable).2.1 (by decide) (by decide),
    (C5_amended [noValidRowTable] noValidRowTable).2.2 (by decide) (by decide)
      (by decide) (by decide)⟩
  intro t' ht' hr hhr
  simp only [List.mem_singleton] at ht'
  subst ht'
  simp only [noLatLonTable, List.head?] at hhr
  cases hhr
  left
  decide


/-! ### Deduplication and sorting lemmas (C6) -/

theorem string_append_right_cancel (a b c : String) (h : a ++ c = b ++ c) : a = b := by
  have h2 := congrArg String.data h
  rw [String.data_append, String.data_append] at h2
  exact String.ext (List.append_cancel_right h2)

theorem stormKey_eq_of_pairKey_eq (e1 e2 : StormEntry) (h : pairKey e1 = pairKey e2) :
    stormKey e1 = stormKey e2 := by
  simp only [pairKey, Prod.mk.injEq] at h
  simp only [stormKey, h.1, h.2]

theorem pairKey_eq_iff_stormKey_eq (e1 e2 : StormEntry) (hb : e1.basin = e2.basin) :
    pairKey e1 = pairKey e2 ↔ stormKey e1 = stormKey e2 := by
  constructor
  · exact stormKey_eq_of_pairKey_eq e1 e2
  · intro h
    simp only [stormKey, hb] at h
    have h2 := string_append_right_cancel _ _ _ h
    have h3 := string_append_right_cancel _ _ _ h2
    simp only [pairKey, Prod.mk.injEq]
    exact ⟨h3, hb⟩

theorem find?_congr_on {α : Type} (p q : α → Bool) (l : List α)
    (h : ∀ x ∈ l, p x = q x) : l.find? p = l.find? q := by
  induction l with
  | nil => rfl
  | cons a l ih =>
    have ha := h a (List.mem_cons_self _ _)
    cases hq : q a with
    | true =>
      rw [List.find?_cons_of_pos _ (by rw [ha, hq]), List.find?_cons_of_pos _ hq]
    | false =>
      rw [List.find?_cons_of_neg _ (by rw [ha, hq]; simp),
        List.find?_cons_of_neg _ (by rw [hq]; simp),
        ih (fun x hx => h x (List.mem_cons_of_mem _ hx))]

theorem dedupStorms_sub (l : List StormEntry) :
    ∀ (seen : List String) (e : StormEntry), e ∈ dedupStorms seen l →
      stormKey e ∉ seen ∧ l.find? (fun x => stormKey x == stormKey e) = some e := by
  induction l with
  | nil => intro seen e he; simp [dedupStorms] at he
  | cons s rest ih =>
    intro seen e he
    simp only [dedupStorms] at he
    by_cases hs : stormKey s ∈ seen
    · rw [if_pos hs] at he
      obtain ⟨hnot, hfind⟩ := ih seen e he
      refine ⟨hnot, ?_⟩
      have hne : ¬ (stormKey s == stormKey e) = true := by
        simp only [beq_iff_eq]
        intro hEq
        exact hnot (hEq ▸ hs)
      have hstep : List.find? (fun x => stormKey x == stormKey e) (s :: rest) =
          List.find? (fun x => stormKey x == stormKey e) rest :=
        List.find?_cons_of_neg rest hne
      rw [hstep, hfind]
    · rw [if_neg hs] at he
      rcases List.mem_cons.1 he with rfl | he
      · exact ⟨hs, by rw [List.find?_cons_of_pos _ (by simp)]⟩
      · obtain ⟨hnot, hfind⟩ := ih (stormKey s :: seen) e he
        have hne : ¬ (stormKey s == stormKey e) = true := by
          simp only [beq_iff_eq]
          intro hEq
          exact hnot (hEq ▸ List.mem_cons_self _ _)
        have hstep : List.find? (fun x => stormKey x == stormKey e) (s :: rest) =
            List.find? (fun x => stormKey x == stormKey e) rest :=
          List.find?_cons_of_neg rest hne
        exact ⟨fun hmem => hnot (List.mem_cons_of_mem _ hmem), by rw [hstep, hfind]⟩

theorem dedupStorms_nodup (l : List StormEntry) :
    ∀ seen : List String, ((dedupStorms seen l).map stormKey).Nodup ∧
      ∀ k ∈ (dedupStorms seen l).map stormKey, k ∉ seen := by
  induction l with
  | nil => intro seen; simp [dedupStorms]
  | cons s rest ih =>
    intro seen
    simp only [dedupStorms]
    by_cases hs : stormKey s ∈ seen
    · rw [if_pos hs]
      exact ih seen
    · rw [if_neg hs]
      obtain ⟨hnd, hout⟩ := ih (stormKey s :: seen)
      simp only [List.map_cons, List.nodup_cons]
      refine ⟨⟨fun hmem => ?_, hnd⟩, fun k hk => ?_⟩
      · exact hout _ hmem (List.mem_cons_self _ _)
      · rcases List.mem_cons.1 hk with rfl | hk
        · exact hs
        · exact fun hkseen => hout k hk (List.mem_cons_of_mem _ hkseen)

theorem dedupStorms_cover (l : List StormEntry) :
    ∀ (seen : List String) (x : StormEntry), x ∈ l → stormKey x ∉ seen →
      ∃ e ∈ dedupStorms seen l, stormKey e = stormKey x := by
  induction l with
  | nil => intro seen x hx; simp at hx
  | cons s rest ih =>
    intro seen x hx hnot
    simp only [dedupStorms]
    by_cases hs : stormKey s ∈ seen
    · rw [if_pos hs]
      rcases List.mem_cons.1 hx with rfl | hx
      · exact absurd hs hnot
      · exact ih seen x hx hnot
    · rw [if_neg hs]
      by_cases hkey : stormKey x = stormKey s
      · exact ⟨s, List.mem_cons_self _ _, hkey.symm⟩
      · rcases List.mem_cons.1 hx with rfl | hx
        · exact absurd rfl hkey
        · obtain ⟨e, he, hek⟩ := ih (stormKey s :: seen) x hx
            (by simp only [List.mem_cons]; rintro (h | h); exact hkey h; exact hnot h)
          exact ⟨e, List.mem_cons_of_mem _ he, hek⟩

theorem orderedInsertB_eq (a : StormEntry) (l : List StormEntry) :
    orderedInsertB nameLeB a l = List.orderedInsert (fun x y => nameLeB x y = true) a l := by
  induction l with
  | nil => rfl
  | cons b l ih => simp only [orderedInsertB, List.orderedInsert, ih]

theorem insertionSortB_eq (l : List StormEntry) :
    insertionSortB nameLeB l = List.insertionSort (fun x y => nameLeB x y = true) l := by
  induction l with
  | nil => rfl
  | cons b l ih => simp only [insertionSortB, List.insertionSort, ih, orderedInsertB_eq]

theorem charListLe_total (a : List Char) : ∀ b, charListLe a b = true ∨ charListLe b a = true := by
  induction a with
  | nil => intro b; left; rfl
  | cons x xs ih =>
    intro b
    cases b with
    | nil => right; rfl
    | cons y ys =>
      simp only [charListLe]
      rcases Nat.lt_trichotomy x.toNat y.toNat with h | h | h
      · left
        simp [h]
      · have hxy : ¬ x.toNat < y.toNat := by omega
        have hyx : ¬ y.toNat < x.toNat := by omega
        rcases ih ys with h2 | h2
        · left
          simp [hxy, hyx, h2]
        · right
          simp [hxy, hyx, h2]
      · right
        simp [h]

theorem charListLe_trans (a : List Char) :
    ∀ b c, charListLe a b = true → charListLe b c = true → charListLe a c = true := by
  induction a with
  | nil => intro b c _ _; rfl
  | cons x xs ih =>
    intro b c h1 h2
    cases b with
    | nil => simp [charListLe] at h1
    | cons y ys =>
      cases c with
      | nil => simp [charListLe] at h2
      | cons z zs =>
        simp only [charListLe] at h1 h2 ⊢
        by_cases hxy : x.toNat < y.toNat
        · by_cases hyz : y.toNat < z.toNat
          · simp [show x.toNat < z.toNat by omega]
          · by_cases hzy : z.toNat < y.toNat
            · simp [hyz, hzy] at h2
            · simp [show x.toNat < z.toNat by omega]
        · by_cases hyx : y.toNat < x.toNat
          · simp [hxy, hyx] at h1
          · by_cases hyz : y.toNat < z.toNat
            · simp [show x.toNat < z.toNat by omega]
            · by_cases hzy : z.toNat < y.toNat
              · simp [hyz, hzy] at h2
              · have h1' : charListLe xs ys = true := by simpa [hxy, hyx] using h1
                have h2' : charListLe ys zs = true := by simpa [hyz, hzy] using h2
                simp [show ¬ x.toNat < z.toNat by omega, show ¬ z.toNat < x.toNat by omega,
                  ih ys zs h1' h2']

theorem emitStorms_basin (b : Basin) (page : List CTable) :
    ∀ e ∈ emitStorms b page, e.basin = b.code := by
  intro e he
  simp only [emitStorms] at he
  split at he
  · simp at he
  · split at he
    · simp at he
    · rw [List.mem_flatMap] at he
      obtain ⟨row, _, he⟩ := he
      split at he
      · simp at he
      · simp only [cellEntries, List.mem_append] at he
        rcases he with he | he
        · simp only [linkEntries, List.mem_filterMap] at he
          obtain ⟨lnk, _, hsome⟩ := he
          split_ifs at hsome
          all_goals first
            | (rw [Option.some_inj] at hsome; rw [← hsome])
            | exact absurd hsome (by simp)
        · split at he
          · simp only [textEntries] at he
            split at he
            · simp at he
            · rw [List.mem_flatMap] at he
              obtain ⟨line, _, he⟩ := he
              simp only [lineEntries] at he
              split at he
              · simp at he
              · split at he
                · rw [List.mem_singleton] at he
                  rw [he]
                · simp at he
          · simp at he

theorem sorted_get_storms (b : Basin) (page : List CTable) :
    (get_storms_for_basin_year b page).Pairwise
      (fun x y => strLe x.storm_name y.storm_name = true) := by
  rw [get_storms_for_basin_year, insertionSortB_eq]
  haveI ht : IsTotal StormEntry (fun x y => strLe x.storm_name y.storm_name = true) :=
    ⟨fun x y => charListLe_total _ _⟩
  haveI htr : IsTrans StormEntry (fun x y => strLe x.storm_name y.storm_name = true) :=
    ⟨fun x y z h1 h2 => charListLe_trans _ _ _ h1 h2⟩
  exact List.sorted_insertionSort _ _


/-- C6: the resolved catalog has at most one entry per
`(storm_name.upper(), basin_code)` key; the entry kept for a key is the first
occurrence in emission order (every emitted key survives); and the final
sequence is sorted by `storm_name` (code-point lexicographic order, Python's
string `<=`). -/
theorem C6_dedup_sort (b : Basin) (page : List CTable) :
    ((get_storms_for_basin_year b page).map pairKey).Nodup ∧
    (get_storms_for_basin_year b page).Pairwise
      (fun x y => strLe x.storm_name y.storm_name = true) ∧
    (∀ e ∈ get_storms_for_basin_year b page,
      (emitStorms b page).find? (fun x => decide (pairKey x = pairKey e)) = some e) ∧
    (∀ x ∈ emitStorms b page,
      ∃ e ∈ get_storms_for_basin_year b page, pairKey e = pairKey x) := by
  have hperm : List.Perm (get_storms_for_basin_year b page)
      (dedupStorms [] (emitStorms b page)) := by
    rw [get_storms_for_basin_year, insertionSortB_eq]
    exact List.perm_insertionSort _ _
  have hDnodupKeys : ((dedupStorms [] (emitStorms b page)).map stormKey).Nodup :=
    (dedupStorms_nodup (emitStorms b page) []).1
  have hmemE : ∀ e ∈ dedupStorms [] (emitStorms b page), e ∈ emitStorms b page := by
    intro e he
    exact List.mem_of_find?_eq_some (dedupStorms_sub (emitStorms b page) [] e he).2
  refine ⟨?_, sorted_get_storms b page, ?_, ?_⟩
  · have hDnodup : (dedupStorms [] (emitStorms b page)).Nodup :=
      List.Nodup.of_map stormKey hDnodupKeys
    have hmap : ((dedupStorms [] (emitStorms b page)).map pairKey).Nodup :=
      List.Nodup.map_on
        (fun x hx y hy hxy =>
          List.inj_on_of_nodup_map hDnodupKeys hx hy (stormKey_eq_of_pairKey_eq x y hxy))
        hDnodup
    exact ((hperm.map pairKey).nodup_iff).2 hmap
  · intro e he
    have heD : e ∈ dedupStorms [] (emitStorms b page) := hperm.mem_iff.1 he
    have hfind := (dedupStorms_sub (emitStorms b page) [] e heD).2
    have heE : e ∈ emitStorms b page := List.mem_of_find?_eq_some hfind
    rw [find?_congr_on (fun x => decide (pairKey x = pairKey e))
      (fun x => stormKey x == stormKey e) (emitStorms b page) ?_, hfind]
    intro x hx
    have hbx := emitStorms_basin b page x hx
    have hbe := emitStorms_basin b page e heE
    have hiff := pairKey_eq_iff_stormKey_eq x e (hbx.trans hbe.symm)
    by_cases hp : pairKey x = pairKey e
    · simp [hp, hiff.1 hp]
    · have hs : stormKey x ≠ stormKey e := fun h => hp (hiff.2 h)
      simp [hp, hs]
  · intro x hx
    obtain ⟨e, heD, hek⟩ :=
      dedupStorms_cover (emitStorms b page) [] x hx (List.not_mem_nil _)
    have heE : e ∈ emitStorms b page :=
      List.mem_of_find?_eq_some (dedupStorms_sub (emitStorms b page) [] e heD).2
    have hbx := emitStorms_basin b page x hx
    have hbe := emitStorms_basin b page e heE
    exact ⟨e, hperm.mem_iff.2 heD,
      (pairKey_eq_iff_stormKey_eq e x (hbe.trans hbx.symm)).2 hek⟩

/-- Witness for C6: the concrete catalog page with a duplicated storm name. -/
theorem C6_dedup_sort_witness :
    ((get_storms_for_basin_year natlBasin catalogPage).map pairKey).Nodup ∧
    (get_storms_for_basin_year natlBasin catalogPage).Pairwise
      (fun x y => strLe x.storm_name y.storm_name = true) ∧
    (emitStorms natlBasin catalogPage).find?
      (fun x => decide (pairKey x =
        pairKey ⟨"ALPHA", "ALPHA", some "x?name=v04r01-1", "NATL"⟩)) =
      some ⟨"ALPHA", "ALPHA", some "x?name=v04r01-1", "NATL"⟩ ∧
    (∃ e ∈ get_storms_for_basin_year natlBasin catalogPage,
      pairKey e = pairKey ⟨"ALPHA", "ALPHA", some "x?name=v04r01-2", "NATL"⟩) := by
  have h := C6_dedup_sort natlBasin catalogPage
  exact ⟨h.1, h.2.1, h.2.2.1 ⟨"ALPHA", "ALPHA", some "x?name=v04r01-1", "NATL"⟩ (by decide),
    h.2.2.2 ⟨"ALPHA", "ALPHA", some "x?name=v04r01-2", "NATL"⟩ (by decide)⟩

end TCTrack
